import Mathlib

/-!
Verification of `src/packages/medusa/src/api/routes/admin/orders/cancel-fulfillment.ts`:
the admin route handler that cancels an order's fulfillment and, when the fulfillment
has a stock location and an inventory service is configured, adjusts inventory for the
cancelled items.

The handler is embedded shallowly as a computation in a state + trace + exception
monad `M`.  The collaborator services (`OrderService`, `FulfillmentService`,
`ProductVariantInventoryService`, the inventory service and the TypeORM
`EntityManager`) live outside this file's source; they are opaque collaborators,
modelled by a `Scope` of oracles plus, where the spec describes their effect,
a state transition modelled from the spec.  Every call the handler makes is
recorded as an `Event` in the trace, so ordering and call-argument claims are
statements about the trace of a run.
-/

namespace CancelFulfillment

/-- A referenced order line item: only `variant_id` matters to this handler
(`item.variant_id` in the source).  `none` models a null/undefined variant id. -/
structure LineItem where
  variant_id : Option String
deriving DecidableEq, Repr

/-- A fulfillment item (`{ item, quantity }` in the source). -/
structure FulfillmentItem where
  item : LineItem
  quantity : Nat
deriving DecidableEq, Repr

/-- The fulfillment entity as used by the handler: its `order_id`, optional
`location_id` (`none` models null/undefined) and its items. -/
structure Fulfillment where
  id : String
  order_id : String
  location_id : Option String
  items : List FulfillmentItem
deriving DecidableEq, Repr

/-- JavaScript truthiness of an optional string: null/undefined and the empty
string are falsy, every other string is truthy. -/
def truthyStr : Option String → Bool
  | none => false
  | some s => s != ""

/-- Error types of `MedusaError` that matter here. -/
inductive ErrType where
  | NOT_FOUND
  | OTHER
deriving DecidableEq, Repr

/-- `MedusaError` from medusa-core-utils: a type tag plus a message. -/
structure MedusaError where
  type : ErrType
  message : String
deriving DecidableEq, Repr

/-- Modelled from the spec: the order representation returned by
`OrderService.retrieveWithTotals` (outside `src/`) is opaque to the handler; we
model it as a bag of named fields so the response-cleaning step is observable. -/
structure Order where
  fields : List (String × String)
deriving DecidableEq, Repr

/-- Modelled from the spec: `req.retrieveConfig`, the retrieve configuration the
framework middleware builds from the query string (field/relation expansion). -/
structure RetrieveConfig where
  select : List String
  relations : List String
deriving DecidableEq, Repr

/-- The request data the handler reads: path params `id` and `fulfillment_id`,
plus `req.retrieveConfig` and `req.includes`. -/
structure Request where
  id : String
  fulfillment_id : String
  retrieveConfig : RetrieveConfig
  includes : List String
deriving DecidableEq, Repr

/-- Modelled from the spec: the observable database state the collaborator
services mutate — which fulfillments have been cancelled, and the log of
inventory adjustments that have taken effect (variant id, location id, quantity). -/
structure St where
  cancelled : List String
  inventoryAdjustments : List (String × String × Nat)
deriving DecidableEq, Repr

/-- One service call made by the handler, recorded in the trace of a run. -/
inductive Event where
  | retrieveFulfillment (fulfillment_id : String) (relations : List String)
  | cancelFulfillment (fulfillment_id : String)
  | adjustInventory (variant_id : String) (location_id : String) (quantity : Nat)
  | retrieveOrderWithTotals (id : String) (config : RetrieveConfig) (includes : List String)
deriving DecidableEq, Repr

/-- The handler monad: a computation takes a database state and returns a result
(or a thrown `MedusaError`), the new state, and the trace of service calls made. -/
def M (α : Type) : Type := St → Except MedusaError α × St × List Event

/-- Pure computation: no calls, no state change. -/
def Mpure {α : Type} (a : α) : M α := fun s => (Except.ok a, s, [])

/-- Sequencing: a thrown error stops the computation; traces concatenate. -/
def Mbind {α β : Type} (x : M α) (f : α → M β) : M β := fun s =>
  match x s with
  | (Except.error e, s1, t) => (Except.error e, s1, t)
  | (Except.ok a, s1, t) =>
    match f a s1 with
    | (r, s2, t2) => (r, s2, t ++ t2)

instance : Monad M where
  pure := Mpure
  bind := Mbind

/-- Throwing a `MedusaError`. -/
def throwM {α : Type} (e : MedusaError) : M α := fun s => (Except.error e, s, [])

theorem M_bind_def {α β : Type} (x : M α) (f : α → M β) : x >>= f = Mbind x f := rfl

theorem M_pure_def {α : Type} (a : α) : (pure a : M α) = Mpure a := rfl

/-- The opaque collaborator services, resolved from the request scope.
`retrieve` is the fulfillment service's lookup (it may depend on the current
database state and on the requested relations); `cancelError` and `adjustError`
say whether the corresponding mutation throws; `orderWithTotals` is the order
reload; `inventoryServicePresent` models whether `req.scope.resolve("inventoryService")`
returns a service (true) or null (false). -/
structure Scope where
  retrieve : String → List String → St → Except MedusaError Fulfillment
  cancelError : String → Option MedusaError
  adjustError : String → String → Nat → Option MedusaError
  orderWithTotals : String → RetrieveConfig → List String → St → Except MedusaError Order
  inventoryServicePresent : Bool

/-- `fulfillmentService.retrieve(fulfillment_id, { relations })`: a read-only
call answered by the scope's oracle, recorded in the trace. -/
def FulfillmentService.retrieve (scope : Scope) (fulfillment_id : String)
    (relations : List String) : M Fulfillment := fun s =>
  match scope.retrieve fulfillment_id relations s with
  | Except.ok f => (Except.ok f, s, [Event.retrieveFulfillment fulfillment_id relations])
  | Except.error e => (Except.error e, s, [Event.retrieveFulfillment fulfillment_id relations])

/-- Modelled from the spec: `OrderService.cancelFulfillment` (outside `src/`)
performs the fulfillment's status transition to cancelled; it may throw
(e.g. invalid state), in which case no transition happens. -/
def OrderService.cancelFulfillment (scope : Scope) (fulfillment_id : String) : M Unit := fun s =>
  match scope.cancelError fulfillment_id with
  | some e => (Except.error e, s, [Event.cancelFulfillment fulfillment_id])
  | none =>
    (Except.ok (), { s with cancelled := fulfillment_id :: s.cancelled },
      [Event.cancelFulfillment fulfillment_id])

/-- Modelled from the spec: `ProductVariantInventoryService.adjustInventory`
(outside `src/`) records an inventory adjustment of `quantity` units for
`variant_id` at `location_id`; it may throw, in which case nothing is recorded. -/
def ProductVariantInventoryService.adjustInventory (scope : Scope) (variant_id : String)
    (location_id : String) (quantity : Nat) : M Unit := fun s =>
  match scope.adjustError variant_id location_id quantity with
  | some e => (Except.error e, s, [Event.adjustInventory variant_id location_id quantity])
  | none =>
    (Except.ok (),
      { s with inventoryAdjustments := (variant_id, location_id, quantity) :: s.inventoryAdjustments },
      [Event.adjustInventory variant_id location_id quantity])

/-- `orderService.retrieveWithTotals(id, req.retrieveConfig, { includes: req.includes })`:
a read-only call answered by the scope's oracle, recorded in the trace. -/
def OrderService.retrieveWithTotals (scope : Scope) (id : String) (config : RetrieveConfig)
    (includes : List String) : M Order := fun s =>
  match scope.orderWithTotals id config includes s with
  | Except.ok o => (Except.ok o, s, [Event.retrieveOrderWithTotals id config includes])
  | Except.error e => (Except.error e, s, [Event.retrieveOrderWithTotals id config includes])

/-- Modelled from the spec: TypeORM's `EntityManager.transaction` (an external
dependency) runs the body atomically — on success the body's effects commit, on
failure all its state effects are rolled back and the error propagates.  The
trace keeps the calls that were made before the failure (they were invoked, but
their effects did not take hold). -/
def EntityManager.transaction (body : M Unit) : M Unit := fun s =>
  match body s with
  | (Except.ok a, s1, t) => (Except.ok a, s1, t)
  | (Except.error e, _, t) => (Except.error e, s, t)

/-- Modelled from the spec: `promiseAll` from @medusajs/utils awaits every
promise in the list; the concurrent fan-out is embedded sequentially in list
order (the spec gives no ordering guarantee between items). -/
def promiseAll : List (M Unit) → M Unit
  | [] => pure ()
  | x :: xs => Mbind x fun _ => promiseAll xs

/-- The body of `fulfillment.items.map(async ({ item, quantity }) => ...)`:
adjust inventory when `item.variant_id` is truthy, otherwise do nothing.
`loc` stands for `fulfillment.location_id!` of the enclosing call. -/
def adjustItemAction (scope : Scope) (loc : String) (fi : FulfillmentItem) : M Unit :=
  match fi.item.variant_id with
  | some v =>
    if v != "" then
      ProductVariantInventoryService.adjustInventory scope v loc fi.quantity
    else pure ()
  | none => pure ()

/-- `adjustInventoryForCancelledFulfillment` from the source: fan out over the
fulfillment's items and adjust inventory for each item with a (truthy)
`variant_id`, at the fulfillment's `location_id` (non-null asserted in the
source, modelled with `getD ""`). -/
def adjustInventoryForCancelledFulfillment (scope : Scope) (fulfillment : Fulfillment) : M Unit :=
  promiseAll (fulfillment.items.map (adjustItemAction scope (fulfillment.location_id.getD "")))

/-- Modelled from the spec: `cleanResponseData` (its source is outside `src/`)
is a generic field-stripping step removing the listed fields from the response. -/
def cleanResponseData (o : Order) (fieldsToRemove : List String) : Order :=
  { fields := o.fields.filter (fun kv => !(fieldsToRemove.contains kv.1)) }

/-- The JSON body: `res.json({ order: ... })` — a single key `order`. -/
structure Response where
  order : Order
deriving DecidableEq, Repr

/-- The message of the ownership-mismatch error thrown by the handler
(template literal in the source). -/
def ownershipMessage (fulfillment_id : String) (id : String) : String :=
  "no fulfillment was found with the id: " ++ fulfillment_id ++ " related to order: " ++ id

/-- The callback passed to `manager.transaction` in the handler: cancel the
fulfillment, re-fetch it with relations `items` and `items.item`, and if its
`location_id` is truthy and an inventory service is present, adjust inventory. -/
def cancelTransactionBody (scope : Scope) (fulfillment_id : String) : M Unit := do
  OrderService.cancelFulfillment scope fulfillment_id
  let fulfillment ← FulfillmentService.retrieve scope fulfillment_id ["items", "items.item"]
  if truthyStr fulfillment.location_id && scope.inventoryServicePresent then
    adjustInventoryForCancelledFulfillment scope fulfillment
  else pure ()

/-- The route handler (default export of the source file): fetch the
fulfillment, check it belongs to the path order id (throw NOT_FOUND otherwise),
run the cancellation transaction, reload the order with totals, and respond
with `{ order: cleanResponseData(order, []) }`. -/
def handler (scope : Scope) (req : Request) : M Response := do
  let fulfillment ← FulfillmentService.retrieve scope req.fulfillment_id []
  if fulfillment.order_id ≠ req.id then
    (throwM { type := ErrType.NOT_FOUND,
              message := ownershipMessage req.fulfillment_id req.id } : M Unit)
  EntityManager.transaction (cancelTransactionBody scope req.fulfillment_id)
  let order ← OrderService.retrieveWithTotals scope req.id req.retrieveConfig req.includes
  pure { order := cleanResponseData order [] }

/-- The adjustInventory calls (variant id, location id, quantity) that the
fan-out over a list of items at location `loc` makes: one per item whose
`variant_id` is truthy, in item order. -/
def itemCalls (loc : String) (items : List FulfillmentItem) : List (String × String × Nat) :=
  items.filterMap (fun fi =>
    match fi.item.variant_id with
    | some v => if v != "" then some (v, loc, fi.quantity) else none
    | none => none)

/-- The adjustInventory calls `adjustInventoryForCancelledFulfillment` makes
for a fulfillment. -/
def adjustCalls (f : Fulfillment) : List (String × String × Nat) :=
  itemCalls (f.location_id.getD "") f.items

/-- The trace event of one adjustInventory call. -/
def adjustEvent (c : String × String × Nat) : Event :=
  Event.adjustInventory c.1 c.2.1 c.2.2

/-- Whether a trace event is an adjustInventory call. -/
def isAdjustEvent : Event → Bool
  | Event.adjustInventory _ _ _ => true
  | _ => false

/-- The state after a list of inventory adjustments has taken effect. -/
def applyAdjustCalls (s : St) : List (String × String × Nat) → St
  | [] => s
  | c :: cs => applyAdjustCalls { s with inventoryAdjustments := c :: s.inventoryAdjustments } cs

/-- The state after `OrderService.cancelFulfillment` succeeds. -/
def stCancel (s : St) (fulfillment_id : String) : St :=
  { s with cancelled := fulfillment_id :: s.cancelled }

/-- The post-transaction state of a successful run in which the re-fetch
returned `f2`: the cancellation, plus the inventory adjustments when the
location/inventory-service guard held. -/
def successState (scope : Scope) (fulfillment_id : String) (f2 : Fulfillment) (s : St) : St :=
  if truthyStr f2.location_id && scope.inventoryServicePresent then
    applyAdjustCalls (stCancel s fulfillment_id) (adjustCalls f2)
  else stCancel s fulfillment_id

/-- The full trace of a successful run in which the re-fetch returned `f2`. -/
def successTrace (scope : Scope) (req : Request) (f2 : Fulfillment) : List Event :=
  Event.retrieveFulfillment req.fulfillment_id [] ::
  Event.cancelFulfillment req.fulfillment_id ::
  Event.retrieveFulfillment req.fulfillment_id ["items", "items.item"] ::
  ((if truthyStr f2.location_id && scope.inventoryServicePresent then
      (adjustCalls f2).map adjustEvent
    else []) ++
   [Event.retrieveOrderWithTotals req.id req.retrieveConfig req.includes])

theorem itemCalls_nil (loc : String) : itemCalls loc [] = [] := rfl

theorem itemCalls_cons (loc : String) (fi : FulfillmentItem) (items : List FulfillmentItem) :
    itemCalls loc (fi :: items) =
      (match fi.item.variant_id with
       | some v => if v != "" then (v, loc, fi.quantity) :: itemCalls loc items else itemCalls loc items
       | none => itemCalls loc items) := by
  unfold itemCalls
  rcases hv : fi.item.variant_id with _ | v
  · simp [List.filterMap_cons, hv]
  · by_cases h : v = ""
    · simp [List.filterMap_cons, hv, h]
    · simp [List.filterMap_cons, hv, h]

/-- Running the per-item fan-out when every adjustment succeeds: the result is
success, the state gains exactly the adjustments of `itemCalls`, and the trace
is exactly those calls in order. -/
theorem promiseAll_adjustItems (scope : Scope) (loc : String)
    (items : List FulfillmentItem) (s : St)
    (h : ∀ c ∈ itemCalls loc items, scope.adjustError c.1 c.2.1 c.2.2 = none) :
    promiseAll (items.map (adjustItemAction scope loc)) s =
      (Except.ok (), applyAdjustCalls s (itemCalls loc items),
        (itemCalls loc items).map adjustEvent) := by
  induction items generalizing s with
  | nil => simp [promiseAll, itemCalls_nil, applyAdjustCalls, Mpure, M_pure_def]
  | cons fi rest ih =>
    rcases hv : fi.item.variant_id with _ | v
    · have hcalls : itemCalls loc (fi :: rest) = itemCalls loc rest := by
        rw [itemCalls_cons, hv]
      rw [hcalls] at h ⊢
      have hrec := ih s h
      simp [promiseAll, adjustItemAction, hv, Mbind, Mpure, M_pure_def, hrec]
    · by_cases hne : v = ""
      · have hcalls : itemCalls loc (fi :: rest) = itemCalls loc rest := by
          rw [itemCalls_cons, hv]
          simp [hne]
        rw [hcalls] at h ⊢
        have hrec := ih s h
        simp [promiseAll, adjustItemAction, hv, hne, Mbind, Mpure, M_pure_def, hrec]
      · have hcalls : itemCalls loc (fi :: rest) = (v, loc, fi.quantity) :: itemCalls loc rest := by
          rw [itemCalls_cons, hv]
          simp [hne]
        rw [hcalls] at h
        have hhead : scope.adjustError v loc fi.quantity = none := h _ (List.mem_cons_self _ _)
        have htail : ∀ c ∈ itemCalls loc rest, scope.adjustError c.1 c.2.1 c.2.2 = none :=
          fun c hc => h c (List.mem_cons_of_mem _ hc)
        have hrec := ih
          { s with inventoryAdjustments := (v, loc, fi.quantity) :: s.inventoryAdjustments } htail
        simp [promiseAll, adjustItemAction, hv, hne, Mbind,
          ProductVariantInventoryService.adjustInventory, hhead, hrec, hcalls,
          applyAdjustCalls, adjustEvent]

/-- Running the transaction body when every step in it succeeds: the
cancellation commits, the re-fetch returns `f2`, and (when the guard holds)
all inventory adjustments are applied, with the calls recorded in order. -/
theorem cancelTransactionBody_run_success (scope : Scope) (fulfillment_id : String)
    (s : St) (f2 : Fulfillment)
    (hc : scope.cancelError fulfillment_id = none)
    (h3 : scope.retrieve fulfillment_id ["items", "items.item"] (stCancel s fulfillment_id) =
      Except.ok f2)
    (hadj : (truthyStr f2.location_id && scope.inventoryServicePresent) = true →
      ∀ c ∈ adjustCalls f2, scope.adjustError c.1 c.2.1 c.2.2 = none) :
    cancelTransactionBody scope fulfillment_id s =
      (Except.ok (), successState scope fulfillment_id f2 s,
        Event.cancelFulfillment fulfillment_id ::
        Event.retrieveFulfillment fulfillment_id ["items", "items.item"] ::
        (if truthyStr f2.location_id && scope.inventoryServicePresent then
          (adjustCalls f2).map adjustEvent
        else [])) := by
  simp only [stCancel] at h3
  by_cases hg : (truthyStr f2.location_id && scope.inventoryServicePresent) = true
  · have hrun := promiseAll_adjustItems scope (f2.location_id.getD "") f2.items
      (stCancel s fulfillment_id) (hadj hg)
    simp only [stCancel] at hrun
    have hg2 : truthyStr f2.location_id = true ∧ scope.inventoryServicePresent = true := by
      simpa using hg
    obtain ⟨hl, hp⟩ := hg2
    simp [cancelTransactionBody, M_bind_def, Mbind, OrderService.cancelFulfillment, hc,
      FulfillmentService.retrieve, h3, hg, hl, hp, adjustInventoryForCancelledFulfillment,
      hrun, successState, stCancel, adjustCalls]
  · have hg2 : ¬(truthyStr f2.location_id = true ∧ scope.inventoryServicePresent = true) := by
      intro hand
      exact hg (by simp [hand.1, hand.2])
    simp [cancelTransactionBody, M_bind_def, Mbind, OrderService.cancelFulfillment, hc,
      FulfillmentService.retrieve, h3, hg, hg2, successState, stCancel, M_pure_def, Mpure]

/-- Running the handler when every step succeeds: the ownership check passes,
the transaction commits its full effect, the order is reloaded at the
post-transaction state, and the response is the cleaned order under key
`order`; the trace is `successTrace`. -/
theorem handler_run_success (scope : Scope) (req : Request) (s : St)
    (f f2 : Fulfillment) (o : Order)
    (h1 : scope.retrieve req.fulfillment_id [] s = Except.ok f)
    (h2 : f.order_id = req.id)
    (hc : scope.cancelError req.fulfillment_id = none)
    (h3 : scope.retrieve req.fulfillment_id ["items", "items.item"]
      (stCancel s req.fulfillment_id) = Except.ok f2)
    (hadj : (truthyStr f2.location_id && scope.inventoryServicePresent) = true →
      ∀ c ∈ adjustCalls f2, scope.adjustError c.1 c.2.1 c.2.2 = none)
    (ho : scope.orderWithTotals req.id req.retrieveConfig req.includes
      (successState scope req.fulfillment_id f2 s) = Except.ok o) :
    handler scope req s =
      (Except.ok { order := cleanResponseData o [] },
        successState scope req.fulfillment_id f2 s,
        successTrace scope req f2) := by
  have hbody := cancelTransactionBody_run_success scope req.fulfillment_id s f2 hc h3 hadj
  simp [handler, M_bind_def, Mbind, FulfillmentService.retrieve, h1, h2,
    EntityManager.transaction, hbody, OrderService.retrieveWithTotals, ho,
    M_pure_def, Mpure, successTrace]

/-- Every call in `itemCalls loc items` targets location `loc`. -/
theorem itemCalls_location (loc : String) (items : List FulfillmentItem) :
    ∀ c ∈ itemCalls loc items, c.2.1 = loc := by
  intro c hc
  unfold itemCalls at hc
  rcases List.mem_filterMap.mp hc with ⟨fi, _, hfi⟩
  rcases hv : fi.item.variant_id with _ | v
  · rw [hv] at hfi
    cases hfi
  · rw [hv] at hfi
    by_cases h : v = ""
    · simp [h] at hfi
    · simp [h] at hfi
      rw [← hfi]

/-- `itemCalls` rendered as trace events, phrased directly over the item list. -/
theorem map_adjustEvent_itemCalls (loc : String) (items : List FulfillmentItem) :
    (itemCalls loc items).map adjustEvent =
      items.filterMap (fun fi =>
        match fi.item.variant_id with
        | some v =>
          if v != "" then some (Event.adjustInventory v loc fi.quantity) else none
        | none => none) := by
  induction items with
  | nil => rfl
  | cons fi rest ih =>
    rcases hv : fi.item.variant_id with _ | v
    · simp [itemCalls_cons, hv, List.filterMap_cons, ih]
    · by_cases h : v = ""
      · simp [itemCalls_cons, hv, h, List.filterMap_cons, ih]
      · simp [itemCalls_cons, hv, h, List.filterMap_cons, ih, adjustEvent]

/-- Adjust events survive the `isAdjustEvent` filter unchanged. -/
theorem filter_isAdjust_map_adjustEvent (calls : List (String × String × Nat)) :
    (calls.map adjustEvent).filter isAdjustEvent = calls.map adjustEvent := by
  induction calls with
  | nil => rfl
  | cons c cs ih => simp [adjustEvent, isAdjustEvent, List.filter_cons, ih]

/-- Handler run when the ownership check fails: the NOT_FOUND error is thrown,
the state is untouched, and only the first fetch is in the trace. -/
theorem handler_run_mismatch_aux (scope : Scope) (req : Request) (s : St) (f : Fulfillment)
    (h1 : scope.retrieve req.fulfillment_id [] s = Except.ok f)
    (h2 : f.order_id ≠ req.id) :
    handler scope req s =
      (Except.error { type := ErrType.NOT_FOUND,
                      message := ownershipMessage req.fulfillment_id req.id }, s,
        [Event.retrieveFulfillment req.fulfillment_id []]) := by
  simp [handler, M_bind_def, Mbind, FulfillmentService.retrieve, h1, h2, throwM]

/-- Handler run when the ownership check passes but the transaction body fails:
the body's error propagates and the state rolls back to the initial one. -/
theorem handler_run_txerror_aux (scope : Scope) (req : Request) (s : St)
    (f : Fulfillment) (e : MedusaError) (s2 : St) (t : List Event)
    (h1 : scope.retrieve req.fulfillment_id [] s = Except.ok f)
    (h2 : f.order_id = req.id)
    (htx : cancelTransactionBody scope req.fulfillment_id s = (Except.error e, s2, t)) :
    handler scope req s =
      (Except.error e, s, Event.retrieveFulfillment req.fulfillment_id [] :: t) := by
  simp [handler, M_bind_def, Mbind, FulfillmentService.retrieve, h1, h2,
    EntityManager.transaction, htx, M_pure_def, Mpure]

/-- Handler run when the transaction commits but the order reload fails:
the reload's error propagates and the committed state stays. -/
theorem handler_run_reload_error_aux (scope : Scope) (req : Request) (s : St)
    (f : Fulfillment) (s3 : St) (t3 : List Event) (e4 : MedusaError)
    (h1 : scope.retrieve req.fulfillment_id [] s = Except.ok f)
    (h2 : f.order_id = req.id)
    (htx : cancelTransactionBody scope req.fulfillment_id s = (Except.ok (), s3, t3))
    (ho : scope.orderWithTotals req.id req.retrieveConfig req.includes s3 =
      Except.error e4) :
    handler scope req s =
      (Except.error e4, s3,
        Event.retrieveFulfillment req.fulfillment_id [] ::
          (t3 ++ [Event.retrieveOrderWithTotals req.id req.retrieveConfig req.includes])) := by
  simp [handler, M_bind_def, Mbind, FulfillmentService.retrieve, h1, h2,
    EntityManager.transaction, htx, OrderService.retrieveWithTotals, ho,
    M_pure_def, Mpure]

/-- Handler run when the transaction commits and the order reload succeeds. -/
theorem handler_run_reload_ok_aux (scope : Scope) (req : Request) (s : St)
    (f : Fulfillment) (s3 : St) (t3 : List Event) (o : Order)
    (h1 : scope.retrieve req.fulfillment_id [] s = Except.ok f)
    (h2 : f.order_id = req.id)
    (htx : cancelTransactionBody scope req.fulfillment_id s = (Except.ok (), s3, t3))
    (ho : scope.orderWithTotals req.id req.retrieveConfig req.includes s3 = Except.ok o) :
    handler scope req s =
      (Except.ok { order := cleanResponseData o [] }, s3,
        Event.retrieveFulfillment req.fulfillment_id [] ::
          (t3 ++ [Event.retrieveOrderWithTotals req.id req.retrieveConfig req.includes])) := by
  simp [handler, M_bind_def, Mbind, FulfillmentService.retrieve, h1, h2,
    EntityManager.transaction, htx, OrderService.retrieveWithTotals, ho,
    M_pure_def, Mpure]

/-- C1: when the fetched fulfillment's `order_id` differs from the path order
id, the handler throws a NOT_FOUND error whose message contains both the
fulfillment id and the order id, leaves the state untouched, and the trace
contains no cancelFulfillment and no adjustInventory call. -/
theorem handler_ownership_mismatch (scope : Scope) (req : Request) (s : St) (f : Fulfillment)
    (h1 : scope.retrieve req.fulfillment_id [] s = Except.ok f)
    (h2 : f.order_id ≠ req.id) :
    handler scope req s =
      (Except.error { type := ErrType.NOT_FOUND,
                      message := ownershipMessage req.fulfillment_id req.id }, s,
        [Event.retrieveFulfillment req.fulfillment_id []]) ∧
    (∃ pre mid, ownershipMessage req.fulfillment_id req.id =
      pre ++ req.fulfillment_id ++ mid ++ req.id) ∧
    (∀ fid, Event.cancelFulfillment fid ∉ (handler scope req s).2.2) ∧
    (∀ v l q, Event.adjustInventory v l q ∉ (handler scope req s).2.2) := by
  have hrun := handler_run_mismatch_aux scope req s f h1 h2
  refine ⟨hrun, ⟨"no fulfillment was found with the id: ", " related to order: ", rfl⟩, ?_, ?_⟩
  · intro fid
    rw [hrun]
    simp
  · intro v l q
    rw [hrun]
    simp

/-- C3: when the pre-transaction fetch succeeds and matches but the transaction
body fails, the handler propagates the body's error and the final state equals
the initial state — the cancellation and every inventory adjustment are rolled
back, none takes effect. -/
theorem handler_transaction_rollback (scope : Scope) (req : Request) (s : St)
    (f : Fulfillment) (e : MedusaError) (s2 : St) (t : List Event)
    (h1 : scope.retrieve req.fulfillment_id [] s = Except.ok f)
    (h2 : f.order_id = req.id)
    (htx : cancelTransactionBody scope req.fulfillment_id s = (Except.error e, s2, t)) :
    handler scope req s =
      (Except.error e, s, Event.retrieveFulfillment req.fulfillment_id [] :: t) ∧
    (handler scope req s).2.1.cancelled = s.cancelled ∧
    (handler scope req s).2.1.inventoryAdjustments = s.inventoryAdjustments := by
  have hrun := handler_run_txerror_aux scope req s f e s2 t h1 h2 htx
  exact ⟨hrun, by rw [hrun], by rw [hrun]⟩

/-- C4: when the re-fetched fulfillment has no (truthy) `location_id`, or no
inventory service is configured, the run makes no adjustInventory call, yet
cancelFulfillment is invoked and the fulfillment ends up cancelled. -/
theorem handler_cancels_without_adjustment (scope : Scope) (req : Request) (s : St)
    (f f2 : Fulfillment) (o : Order)
    (h1 : scope.retrieve req.fulfillment_id [] s = Except.ok f)
    (h2 : f.order_id = req.id)
    (hc : scope.cancelError req.fulfillment_id = none)
    (h3 : scope.retrieve req.fulfillment_id ["items", "items.item"]
      (stCancel s req.fulfillment_id) = Except.ok f2)
    (hg : truthyStr f2.location_id = false ∨ scope.inventoryServicePresent = false)
    (ho : scope.orderWithTotals req.id req.retrieveConfig req.includes
      (stCancel s req.fulfillment_id) = Except.ok o) :
    handler scope req s =
      (Except.ok { order := cleanResponseData o [] }, stCancel s req.fulfillment_id,
        [Event.retrieveFulfillment req.fulfillment_id [],
         Event.cancelFulfillment req.fulfillment_id,
         Event.retrieveFulfillment req.fulfillment_id ["items", "items.item"],
         Event.retrieveOrderWithTotals req.id req.retrieveConfig req.includes]) ∧
    (∀ v l q, Event.adjustInventory v l q ∉ (handler scope req s).2.2) ∧
    Event.cancelFulfillment req.fulfillment_id ∈ (handler scope req s).2.2 ∧
    req.fulfillment_id ∈ (handler scope req s).2.1.cancelled := by
  have hgb : (truthyStr f2.location_id && scope.inventoryServicePresent) = false := by
    rcases hg with h | h <;> simp [h]
  have hstate : successState scope req.fulfillment_id f2 s = stCancel s req.fulfillment_id := by
    simp [successState, hgb]
  have ho2 : scope.orderWithTotals req.id req.retrieveConfig req.includes
      (successState scope req.fulfillment_id f2 s) = Except.ok o := by
    rw [hstate]
    exact ho
  have hrun := handler_run_success scope req s f f2 o h1 h2 hc h3
    (fun hcon => by rw [hgb] at hcon; exact absurd hcon (by simp)) ho2
  rw [hstate] at hrun
  have htrace : successTrace scope req f2 =
      [Event.retrieveFulfillment req.fulfillment_id [],
       Event.cancelFulfillment req.fulfillment_id,
       Event.retrieveFulfillment req.fulfillment_id ["items", "items.item"],
       Event.retrieveOrderWithTotals req.id req.retrieveConfig req.includes] := by
    simp [successTrace, hgb]
  rw [htrace] at hrun
  refine ⟨hrun, ?_, ?_, ?_⟩
  · intro v l q
    rw [hrun]
    simp
  · rw [hrun]
    simp
  · rw [hrun]
    simp [stCancel]

/-- C5: in a fully successful run the trace is exactly: the pre-transaction
fetch, then cancelFulfillment, then the relations re-fetch, then the (possibly
empty) block of adjustInventory calls, then — after the transaction — the order
reload with totals; in particular no adjustment precedes the cancellation. -/
theorem handler_operation_order (scope : Scope) (req : Request) (s : St)
    (f f2 : Fulfillment) (o : Order)
    (h1 : scope.retrieve req.fulfillment_id [] s = Except.ok f)
    (h2 : f.order_id = req.id)
    (hc : scope.cancelError req.fulfillment_id = none)
    (h3 : scope.retrieve req.fulfillment_id ["items", "items.item"]
      (stCancel s req.fulfillment_id) = Except.ok f2)
    (hadj : (truthyStr f2.location_id && scope.inventoryServicePresent) = true →
      ∀ c ∈ adjustCalls f2, scope.adjustError c.1 c.2.1 c.2.2 = none)
    (ho : scope.orderWithTotals req.id req.retrieveConfig req.includes
      (successState scope req.fulfillment_id f2 s) = Except.ok o) :
    (handler scope req s).2.2 =
      Event.retrieveFulfillment req.fulfillment_id [] ::
      Event.cancelFulfillment req.fulfillment_id ::
      Event.retrieveFulfillment req.fulfillment_id ["items", "items.item"] ::
      ((if truthyStr f2.location_id && scope.inventoryServicePresent then
          (adjustCalls f2).map adjustEvent
        else []) ++
       [Event.retrieveOrderWithTotals req.id req.retrieveConfig req.includes]) := by
  have hrun := handler_run_success scope req s f f2 o h1 h2 hc h3 hadj ho
  rw [hrun]
  rfl

/-- C6: on success the handler reloads the order with the request's retrieve
configuration and includes, after the transaction (the reload event is last in
the trace), and responds with a body whose single key `order` holds the
reloaded order passed through `cleanResponseData` with an empty exclusion list. -/
theorem handler_response_shape (scope : Scope) (req : Request) (s : St)
    (f f2 : Fulfillment) (o : Order)
    (h1 : scope.retrieve req.fulfillment_id [] s = Except.ok f)
    (h2 : f.order_id = req.id)
    (hc : scope.cancelError req.fulfillment_id = none)
    (h3 : scope.retrieve req.fulfillment_id ["items", "items.item"]
      (stCancel s req.fulfillment_id) = Except.ok f2)
    (hadj : (truthyStr f2.location_id && scope.inventoryServicePresent) = true →
      ∀ c ∈ adjustCalls f2, scope.adjustError c.1 c.2.1 c.2.2 = none)
    (ho : scope.orderWithTotals req.id req.retrieveConfig req.includes
      (successState scope req.fulfillment_id f2 s) = Except.ok o) :
    (handler scope req s).1 = Except.ok { order := cleanResponseData o [] } ∧
    (∃ t0, (handler scope req s).2.2 =
      t0 ++ [Event.retrieveOrderWithTotals req.id req.retrieveConfig req.includes]) := by
  have hrun := handler_run_success scope req s f f2 o h1 h2 hc h3 hadj ho
  constructor
  · rw [hrun]
  · refine ⟨Event.retrieveFulfillment req.fulfillment_id [] ::
      Event.cancelFulfillment req.fulfillment_id ::
      Event.retrieveFulfillment req.fulfillment_id ["items", "items.item"] ::
      (if truthyStr f2.location_id && scope.inventoryServicePresent then
        (adjustCalls f2).map adjustEvent
      else []), ?_⟩
    rw [hrun]
    simp [successTrace]

/-- C2: with a truthy `location_id` on the re-fetched fulfillment and an
inventory service present, the run's adjustInventory calls are exactly one per
fulfillment item whose referenced order item has a (truthy) `variant_id` —
each passing that variant id, the fulfillment's `location_id` and that item's
quantity — and items without a variant id produce no call. -/
theorem handler_adjusts_once_per_variant_item (scope : Scope) (req : Request) (s : St)
    (f f2 : Fulfillment) (o : Order)
    (h1 : scope.retrieve req.fulfillment_id [] s = Except.ok f)
    (h2 : f.order_id = req.id)
    (hc : scope.cancelError req.fulfillment_id = none)
    (h3 : scope.retrieve req.fulfillment_id ["items", "items.item"]
      (stCancel s req.fulfillment_id) = Except.ok f2)
    (hloc : truthyStr f2.location_id = true)
    (hinv : scope.inventoryServicePresent = true)
    (hadj : ∀ c ∈ adjustCalls f2, scope.adjustError c.1 c.2.1 c.2.2 = none)
    (ho : scope.orderWithTotals req.id req.retrieveConfig req.includes
      (successState scope req.fulfillment_id f2 s) = Except.ok o) :
    ((handler scope req s).2.2).filter isAdjustEvent =
      f2.items.filterMap (fun fi =>
        match fi.item.variant_id with
        | some v =>
          if v != "" then
            some (Event.adjustInventory v (f2.location_id.getD "") fi.quantity)
          else none
        | none => none) := by
  have hrun := handler_run_success scope req s f f2 o h1 h2 hc h3 (fun _ => hadj) ho
  rw [hrun]
  have hg : (truthyStr f2.location_id && scope.inventoryServicePresent) = true := by
    simp [hloc, hinv]
  rw [← map_adjustEvent_itemCalls]
  have hfilter := filter_isAdjust_map_adjustEvent (adjustCalls f2)
  simp [successTrace, hg, isAdjustEvent, List.filter_append, hfilter, adjustCalls]
  intro a x y q _hc hev
  rw [← hev]
  rfl

/-- C8: `adjustInventoryForCancelledFulfillment` has no guard on quantity: a
fulfillment item whose referenced order item has a (truthy) `variant_id` and
quantity 0 still yields an adjustInventory call with quantity 0. -/
theorem adjustInventory_called_for_zero_quantity (scope : Scope) (f : Fulfillment) (s : St)
    (fi : FulfillmentItem) (v : String)
    (hmem : fi ∈ f.items)
    (hv : fi.item.variant_id = some v)
    (hv2 : v ≠ "")
    (hq : fi.quantity = 0)
    (hok : ∀ c ∈ adjustCalls f, scope.adjustError c.1 c.2.1 c.2.2 = none) :
    Event.adjustInventory v (f.location_id.getD "") 0 ∈
      (adjustInventoryForCancelledFulfillment scope f s).2.2 := by
  have hrun := promiseAll_adjustItems scope (f.location_id.getD "") f.items s hok
  have htr : (adjustInventoryForCancelledFulfillment scope f s).2.2 =
      (itemCalls (f.location_id.getD "") f.items).map adjustEvent := by
    rw [adjustInventoryForCancelledFulfillment, hrun]
  rw [htr]
  have hcall : (v, f.location_id.getD "", fi.quantity) ∈
      itemCalls (f.location_id.getD "") f.items := by
    unfold itemCalls
    refine List.mem_filterMap.mpr ⟨fi, hmem, ?_⟩
    simp [hv, hv2]
  rw [hq] at hcall
  exact List.mem_map.mpr ⟨_, hcall, rfl⟩

/-- C9: the inventory guard is a truthiness test on `location_id`: when the
re-fetched fulfillment's `location_id` is null/undefined or the empty string,
no adjustInventory call is made even with an inventory service present, while
the cancellation still proceeds and the run succeeds. -/
theorem handler_falsy_location_skips_adjustment (scope : Scope) (req : Request) (s : St)
    (f f2 : Fulfillment) (o : Order)
    (h1 : scope.retrieve req.fulfillment_id [] s = Except.ok f)
    (h2 : f.order_id = req.id)
    (hc : scope.cancelError req.fulfillment_id = none)
    (h3 : scope.retrieve req.fulfillment_id ["items", "items.item"]
      (stCancel s req.fulfillment_id) = Except.ok f2)
    (_hinv : scope.inventoryServicePresent = true)
    (hloc : f2.location_id = none ∨ f2.location_id = some "")
    (ho : scope.orderWithTotals req.id req.retrieveConfig req.includes
      (stCancel s req.fulfillment_id) = Except.ok o) :
    (∀ v l q, Event.adjustInventory v l q ∉ (handler scope req s).2.2) ∧
    Event.cancelFulfillment req.fulfillment_id ∈ (handler scope req s).2.2 ∧
    (handler scope req s).1 = Except.ok { order := cleanResponseData o [] } ∧
    req.fulfillment_id ∈ (handler scope req s).2.1.cancelled := by
  have hgb : (truthyStr f2.location_id && scope.inventoryServicePresent) = false := by
    rcases hloc with h | h <;> simp [truthyStr, h]
  have hstate : successState scope req.fulfillment_id f2 s = stCancel s req.fulfillment_id := by
    simp [successState, hgb]
  have ho2 : scope.orderWithTotals req.id req.retrieveConfig req.includes
      (successState scope req.fulfillment_id f2 s) = Except.ok o := by
    rw [hstate]
    exact ho
  have hrun := handler_run_success scope req s f f2 o h1 h2 hc h3
    (fun hcon => by rw [hgb] at hcon; exact absurd hcon (by simp)) ho2
  rw [hstate] at hrun
  refine ⟨?_, ?_, ?_, ?_⟩
  · intro v l q
    rw [hrun]
    simp [successTrace, hgb]
  · rw [hrun]
    simp [successTrace]
  · rw [hrun]
  · rw [hrun]
    simp [stCancel]

/-- C10: the fulfillment that decides and parameterizes inventory adjustment is
the one re-fetched inside the transaction (after cancelFulfillment), not the
pre-transaction fetch: the run's adjust calls are exactly `adjustCalls` of the
re-fetched fulfillment, and every adjustInventory event in the trace uses that
single fulfillment's `location_id`, whatever the first fetch returned. -/
theorem handler_adjusts_from_refetched_fulfillment (scope : Scope) (req : Request) (s : St)
    (f f2 : Fulfillment) (o : Order)
    (h1 : scope.retrieve req.fulfillment_id [] s = Except.ok f)
    (h2 : f.order_id = req.id)
    (hc : scope.cancelError req.fulfillment_id = none)
    (h3 : scope.retrieve req.fulfillment_id ["items", "items.item"]
      (stCancel s req.fulfillment_id) = Except.ok f2)
    (hloc : truthyStr f2.location_id = true)
    (hinv : scope.inventoryServicePresent = true)
    (hadj : ∀ c ∈ adjustCalls f2, scope.adjustError c.1 c.2.1 c.2.2 = none)
    (ho : scope.orderWithTotals req.id req.retrieveConfig req.includes
      (successState scope req.fulfillment_id f2 s) = Except.ok o) :
    ((handler scope req s).2.2).filter isAdjustEvent = (adjustCalls f2).map adjustEvent ∧
    (∀ v l q, Event.adjustInventory v l q ∈ (handler scope req s).2.2 →
      l = f2.location_id.getD "") := by
  have hrun := handler_run_success scope req s f f2 o h1 h2 hc h3 (fun _ => hadj) ho
  have hg : (truthyStr f2.location_id && scope.inventoryServicePresent) = true := by
    simp [hloc, hinv]
  have hfirst : ((handler scope req s).2.2).filter isAdjustEvent =
      (adjustCalls f2).map adjustEvent := by
    rw [hrun]
    have hfilter := filter_isAdjust_map_adjustEvent (adjustCalls f2)
    simp [successTrace, hg, isAdjustEvent, List.filter_append, hfilter]
  refine ⟨hfirst, ?_⟩
  intro v l q hmemE
  have hfil : Event.adjustInventory v l q ∈
      ((handler scope req s).2.2).filter isAdjustEvent :=
    List.mem_filter.mpr ⟨hmemE, rfl⟩
  rw [hfirst] at hfil
  rcases List.mem_map.mp hfil with ⟨c, hcmem, hcev⟩
  obtain ⟨cv, cl, cq⟩ := c
  have hcev2 : Event.adjustInventory cv cl cq = Event.adjustInventory v l q := hcev
  injection hcev2 with _hv hl _hq
  have hcl : cl = f2.location_id.getD "" :=
    itemCalls_location (f2.location_id.getD "") f2.items (cv, cl, cq) hcmem
  rw [← hl]
  exact hcl

/-- An error coming out of the per-item fan-out is an error some
adjustInventory call returned. -/
theorem promiseAll_adjustItems_error (scope : Scope) (loc : String)
    (items : List FulfillmentItem) (s : St) (e : MedusaError) (s2 : St) (t : List Event)
    (h : promiseAll (items.map (adjustItemAction scope loc)) s = (Except.error e, s2, t)) :
    ∃ v l q, scope.adjustError v l q = some e := by
  induction items generalizing s s2 t with
  | nil => simp [promiseAll, M_pure_def, Mpure] at h
  | cons fi rest ih =>
    rcases hv : fi.item.variant_id with _ | v
    · have hstep : promiseAll (List.map (adjustItemAction scope loc) (fi :: rest)) s =
          promiseAll (List.map (adjustItemAction scope loc) rest) s := by
        simp only [List.map_cons, promiseAll, adjustItemAction, hv]
        rfl
      rw [hstep] at h
      exact ih _ _ _ h
    · by_cases hne : v = ""
      · subst hne
        have hstep : promiseAll (List.map (adjustItemAction scope loc) (fi :: rest)) s =
            promiseAll (List.map (adjustItemAction scope loc) rest) s := by
          simp only [List.map_cons, promiseAll, adjustItemAction, hv]
          rfl
        rw [hstep] at h
        exact ih _ _ _ h
      · have hbn : (v != "") = true := by simpa using hne
        rcases ha : scope.adjustError v loc fi.quantity with _ | e0
        · have hstep : promiseAll (List.map (adjustItemAction scope loc) (fi :: rest)) s =
              ((promiseAll (List.map (adjustItemAction scope loc) rest)
                  { s with inventoryAdjustments :=
                      (v, loc, fi.quantity) :: s.inventoryAdjustments }).1,
               (promiseAll (List.map (adjustItemAction scope loc) rest)
                  { s with inventoryAdjustments :=
                      (v, loc, fi.quantity) :: s.inventoryAdjustments }).2.1,
               Event.adjustInventory v loc fi.quantity ::
                 (promiseAll (List.map (adjustItemAction scope loc) rest)
                    { s with inventoryAdjustments :=
                        (v, loc, fi.quantity) :: s.inventoryAdjustments }).2.2) := by
            simp only [List.map_cons, promiseAll, adjustItemAction, hv]
            rw [if_pos hbn]
            simp only [Mbind, ProductVariantInventoryService.adjustInventory, ha]
            rfl
          rw [hstep] at h
          rcases hrest : promiseAll (List.map (adjustItemAction scope loc) rest)
              { s with inventoryAdjustments := (v, loc, fi.quantity) :: s.inventoryAdjustments }
            with ⟨r, s3, t3⟩
          rw [hrest] at h
          cases r with
          | error e1 =>
            simp only [Prod.mk.injEq, Except.error.injEq] at h
            obtain ⟨h1, -, -⟩ := h
            subst h1
            exact ih _ _ _ hrest
          | ok a => simp at h
        · have hstep : promiseAll (List.map (adjustItemAction scope loc) (fi :: rest)) s =
              (Except.error e0, s, [Event.adjustInventory v loc fi.quantity]) := by
            simp only [List.map_cons, promiseAll, adjustItemAction, hv]
            rw [if_pos hbn]
            simp only [Mbind, ProductVariantInventoryService.adjustInventory, ha]
          rw [hstep] at h
          simp only [Prod.mk.injEq, Except.error.injEq] at h
          exact ⟨v, loc, fi.quantity, by rw [ha, h.1]⟩

/-- An error coming out of the transaction body is the cancellation's error,
a fulfillment re-fetch's error, or an inventory adjustment's error. -/
theorem cancelTransactionBody_error (scope : Scope) (fulfillment_id : String) (s : St)
    (e : MedusaError) (s2 : St) (t : List Event)
    (h : cancelTransactionBody scope fulfillment_id s = (Except.error e, s2, t)) :
    scope.cancelError fulfillment_id = some e ∨
    (∃ rel s0, scope.retrieve fulfillment_id rel s0 = Except.error e) ∨
    (∃ v l q, scope.adjustError v l q = some e) := by
  rcases hcE : scope.cancelError fulfillment_id with _ | e0
  · rcases hr : scope.retrieve fulfillment_id ["items", "items.item"]
        (stCancel s fulfillment_id) with e1 | f2
    · have hstep : cancelTransactionBody scope fulfillment_id s =
          (Except.error e1, stCancel s fulfillment_id,
            [Event.cancelFulfillment fulfillment_id,
             Event.retrieveFulfillment fulfillment_id ["items", "items.item"]]) := by
        simp only [stCancel] at hr
        simp only [cancelTransactionBody, M_bind_def, Mbind,
          OrderService.cancelFulfillment, hcE, FulfillmentService.retrieve, hr, stCancel]
        rfl
      rw [hstep] at h
      simp only [Prod.mk.injEq, Except.error.injEq] at h
      refine Or.inr (Or.inl ⟨["items", "items.item"], stCancel s fulfillment_id, ?_⟩)
      rw [h.1] at hr
      exact hr
    · by_cases hg : (truthyStr f2.location_id && scope.inventoryServicePresent) = true
      · rcases hadjres : adjustInventoryForCancelledFulfillment scope f2
            (stCancel s fulfillment_id) with ⟨r, s3, t3⟩
        cases r with
        | error e2 =>
          have hstep : cancelTransactionBody scope fulfillment_id s =
              (Except.error e2, s3,
                Event.cancelFulfillment fulfillment_id ::
                Event.retrieveFulfillment fulfillment_id ["items", "items.item"] :: t3) := by
            simp only [stCancel] at hr hadjres
            simp only [cancelTransactionBody, M_bind_def, Mbind,
              OrderService.cancelFulfillment, hcE, FulfillmentService.retrieve, hr]
            rw [if_pos hg]
            simp only [hadjres]
            rfl
          rw [hstep] at h
          simp only [Prod.mk.injEq, Except.error.injEq] at h
          obtain ⟨he, -, -⟩ := h
          subst he
          exact Or.inr (Or.inr (promiseAll_adjustItems_error scope
            (f2.location_id.getD "") f2.items (stCancel s fulfillment_id) e2 s3 t3 hadjres))
        | ok a =>
          have hstep : cancelTransactionBody scope fulfillment_id s =
              (Except.ok (), s3,
                Event.cancelFulfillment fulfillment_id ::
                Event.retrieveFulfillment fulfillment_id ["items", "items.item"] :: t3) := by
            simp only [stCancel] at hr hadjres
            simp only [cancelTransactionBody, M_bind_def, Mbind,
              OrderService.cancelFulfillment, hcE, FulfillmentService.retrieve, hr]
            rw [if_pos hg]
            simp only [hadjres]
            rfl
          rw [hstep] at h
          simp at h
      · have hstep : cancelTransactionBody scope fulfillment_id s =
            (Except.ok (), stCancel s fulfillment_id,
              [Event.cancelFulfillment fulfillment_id,
               Event.retrieveFulfillment fulfillment_id ["items", "items.item"]]) := by
          simp only [stCancel] at hr
          simp only [cancelTransactionBody, M_bind_def, Mbind,
            OrderService.cancelFulfillment, hcE, FulfillmentService.retrieve, hr, stCancel]
          rw [if_neg hg]
          rfl
        rw [hstep] at h
        simp at h
  · have hstep : cancelTransactionBody scope fulfillment_id s =
        (Except.error e0, s, [Event.cancelFulfillment fulfillment_id]) := by
      simp only [cancelTransactionBody, M_bind_def, Mbind,
        OrderService.cancelFulfillment, hcE]
    rw [hstep] at h
    simp only [Prod.mk.injEq, Except.error.injEq] at h
    exact Or.inl (by rw [h.1])

/-- C7: the handler performs exactly one explicit validation: every error it
produces is either the ownership NOT_FOUND error, or exactly an error returned
by one of the collaborator services (fulfillment retrieval, cancellation,
inventory adjustment, order reload) — propagated unmodified. -/
theorem handler_error_propagation (scope : Scope) (req : Request) (s : St)
    (e : MedusaError) (s2 : St) (t : List Event)
    (h : handler scope req s = (Except.error e, s2, t)) :
    e = { type := ErrType.NOT_FOUND,
          message := ownershipMessage req.fulfillment_id req.id } ∨
    (∃ fid rel s0, scope.retrieve fid rel s0 = Except.error e) ∨
    (∃ fid, scope.cancelError fid = some e) ∨
    (∃ v l q, scope.adjustError v l q = some e) ∨
    (∃ oid cfg inc s0, scope.orderWithTotals oid cfg inc s0 = Except.error e) := by
  rcases h1 : scope.retrieve req.fulfillment_id [] s with e1 | f
  · have hstep : handler scope req s =
        (Except.error e1, s, [Event.retrieveFulfillment req.fulfillment_id []]) := by
      simp only [handler, M_bind_def, Mbind, FulfillmentService.retrieve, h1]
    rw [hstep] at h
    simp only [Prod.mk.injEq, Except.error.injEq] at h
    exact Or.inr (Or.inl ⟨req.fulfillment_id, [], s, by rw [h1, h.1]⟩)
  · by_cases h2 : f.order_id = req.id
    · rcases htx : cancelTransactionBody scope req.fulfillment_id s with ⟨r, s3, t3⟩
      cases r with
      | error e2 =>
        have hrun := handler_run_txerror_aux scope req s f e2 s3 t3 h1 h2 htx
        rw [hrun] at h
        simp only [Prod.mk.injEq, Except.error.injEq] at h
        obtain ⟨he, -, -⟩ := h
        subst he
        rcases cancelTransactionBody_error scope req.fulfillment_id s e2 s3 t3 htx with
          hC | hR | hA
        · exact Or.inr (Or.inr (Or.inl ⟨req.fulfillment_id, hC⟩))
        · rcases hR with ⟨rel, s0, hR⟩
          exact Or.inr (Or.inl ⟨req.fulfillment_id, rel, s0, hR⟩)
        · exact Or.inr (Or.inr (Or.inr (Or.inl hA)))
      | ok a =>
        cases a
        rcases ho : scope.orderWithTotals req.id req.retrieveConfig req.includes s3
          with e4 | o
        · have hrun := handler_run_reload_error_aux scope req s f s3 t3 e4 h1 h2 htx ho
          rw [hrun] at h
          simp only [Prod.mk.injEq, Except.error.injEq] at h
          exact Or.inr (Or.inr (Or.inr (Or.inr
            ⟨req.id, req.retrieveConfig, req.includes, s3, by rw [ho, h.1]⟩)))
        · have hrun := handler_run_reload_ok_aux scope req s f s3 t3 o h1 h2 htx ho
          rw [hrun] at h
          simp at h
    · have hrun := handler_run_mismatch_aux scope req s f h1 h2
      rw [hrun] at h
      simp only [Prod.mk.injEq, Except.error.injEq] at h
      exact Or.inl h.1.symm

/-! Concrete data used by the witnesses. -/

/-- A fulfillment item with a variant and a positive quantity. -/
def itemA : FulfillmentItem := { item := { variant_id := some "var_1" }, quantity := 2 }

/-- A fulfillment item whose referenced order item has no variant. -/
def itemB : FulfillmentItem := { item := { variant_id := none }, quantity := 3 }

/-- A fulfillment item with a variant and quantity 0. -/
def itemZ : FulfillmentItem := { item := { variant_id := some "var_2" }, quantity := 0 }

/-- The fulfillment as seen by the pre-transaction fetch (no relations): no
location, no items loaded. -/
def ful0 : Fulfillment :=
  { id := "ful_1", order_id := "order_1", location_id := none, items := [] }

/-- The fulfillment as seen by the in-transaction re-fetch: location and items. -/
def ful1 : Fulfillment :=
  { id := "ful_1", order_id := "order_1", location_id := some "loc_1",
    items := [itemA, itemB, itemZ] }

/-- The re-fetched fulfillment with an empty-string (falsy) location. -/
def fulEmptyLoc : Fulfillment := { ful1 with location_id := some "" }

/-- The reloaded order. -/
def order1 : Order := { fields := [("id", "order_1"), ("fulfillment_status", "canceled")] }

/-- A retrieve configuration. -/
def cfg1 : RetrieveConfig := { select := ["id"], relations := ["items"] }

/-- The request for order `order_1`, fulfillment `ful_1`. -/
def req1 : Request :=
  { id := "order_1", fulfillment_id := "ful_1", retrieveConfig := cfg1, includes := [] }

/-- The same request with a different path order id (ownership mismatch). -/
def reqMismatch : Request := { req1 with id := "order_2" }

/-- The initial database state. -/
def st0 : St := { cancelled := [], inventoryAdjustments := [] }

/-- A scope in which every collaborator succeeds; the fulfillment service
answers `ful0` before the cancellation and `ful1` after it. -/
def baseScope : Scope :=
  { retrieve := fun fid _rel s =>
      if fid = "ful_1" then
        if s.cancelled.contains "ful_1" then Except.ok ful1 else Except.ok ful0
      else Except.error { type := ErrType.NOT_FOUND, message := "Fulfillment not found" },
    cancelError := fun _ => none,
    adjustError := fun _ _ _ => none,
    orderWithTotals := fun oid _cfg _inc _s =>
      if oid = "order_1" then Except.ok order1
      else Except.error { type := ErrType.NOT_FOUND, message := "Order not found" },
    inventoryServicePresent := true }

/-- The error thrown by the failing inventory adjustment in the witnesses. -/
def errAdjust : MedusaError := { type := ErrType.OTHER, message := "adjust failed" }

/-- The error thrown by the failing cancellation in the witnesses. -/
def errCancel : MedusaError := { type := ErrType.OTHER, message := "cancel failed" }

/-- A scope whose inventory adjustment fails for variant `var_1`. -/
def scopeAdjFail : Scope :=
  { baseScope with adjustError := fun v _ _ => if v = "var_1" then some errAdjust else none }

/-- A scope with no inventory service configured. -/
def scopeNoInv : Scope := { baseScope with inventoryServicePresent := false }

/-- A scope whose cancellation fails. -/
def scopeCancelFail : Scope := { baseScope with cancelError := fun _ => some errCancel }

/-- A scope whose re-fetch returns a fulfillment with an empty-string location. -/
def scopeEmptyLoc : Scope :=
  { baseScope with retrieve := fun fid _rel s =>
      if fid = "ful_1" then
        if s.cancelled.contains "ful_1" then Except.ok fulEmptyLoc else Except.ok ful0
      else Except.error { type := ErrType.NOT_FOUND, message := "Fulfillment not found" } }

/-- C1 witness: a concrete run with a mismatching path order id. -/
theorem handler_ownership_mismatch_witness :
    (baseScope.retrieve reqMismatch.fulfillment_id [] st0 = Except.ok ful0 ∧
     ful0.order_id ≠ reqMismatch.id) ∧
    handler baseScope reqMismatch st0 =
      (Except.error { type := ErrType.NOT_FOUND,
                      message := ownershipMessage reqMismatch.fulfillment_id reqMismatch.id },
        st0, [Event.retrieveFulfillment reqMismatch.fulfillment_id []]) :=
  ⟨⟨rfl, by decide⟩,
   (handler_ownership_mismatch baseScope reqMismatch st0 ful0 rfl (by decide)).1⟩

/-- C2 witness: a concrete successful run adjusts inventory exactly for the
two items with a variant (quantities 2 and 0) and skips the variant-less item. -/
theorem handler_adjusts_once_per_variant_item_witness :
    (baseScope.retrieve req1.fulfillment_id [] st0 = Except.ok ful0 ∧
     ful0.order_id = req1.id ∧
     truthyStr ful1.location_id = true ∧
     baseScope.inventoryServicePresent = true) ∧
    ((handler baseScope req1 st0).2.2).filter isAdjustEvent =
      [Event.adjustInventory "var_1" "loc_1" 2, Event.adjustInventory "var_2" "loc_1" 0] :=
  ⟨⟨rfl, rfl, rfl, rfl⟩,
   handler_adjusts_once_per_variant_item baseScope req1 st0 ful0 ful1 order1
     rfl rfl rfl rfl rfl rfl (fun _c _ => rfl) rfl⟩

/-- C3 witness: a concrete run in which the cancellation succeeds but the
adjustment for `var_1` throws — the handler propagates the error and the final
state equals the initial state. -/
theorem handler_transaction_rollback_witness :
    (scopeAdjFail.retrieve req1.fulfillment_id [] st0 = Except.ok ful0 ∧
     ful0.order_id = req1.id ∧
     cancelTransactionBody scopeAdjFail req1.fulfillment_id st0 =
       (Except.error errAdjust, { cancelled := ["ful_1"], inventoryAdjustments := [] },
         [Event.cancelFulfillment "ful_1",
          Event.retrieveFulfillment "ful_1" ["items", "items.item"],
          Event.adjustInventory "var_1" "loc_1" 2])) ∧
    handler scopeAdjFail req1 st0 =
      (Except.error errAdjust, st0,
        Event.retrieveFulfillment req1.fulfillment_id [] ::
          [Event.cancelFulfillment "ful_1",
           Event.retrieveFulfillment "ful_1" ["items", "items.item"],
           Event.adjustInventory "var_1" "loc_1" 2]) :=
  ⟨⟨rfl, rfl, rfl⟩,
   (handler_transaction_rollback scopeAdjFail req1 st0 ful0 errAdjust
     { cancelled := ["ful_1"], inventoryAdjustments := [] }
     [Event.cancelFulfillment "ful_1",
      Event.retrieveFulfillment "ful_1" ["items", "items.item"],
      Event.adjustInventory "var_1" "loc_1" 2] rfl rfl rfl).1⟩

/-- C4 witness: a concrete run with no inventory service — no adjustInventory
call, yet the fulfillment is cancelled and the run succeeds. -/
theorem handler_cancels_without_adjustment_witness :
    (scopeNoInv.retrieve req1.fulfillment_id [] st0 = Except.ok ful0 ∧
     ful0.order_id = req1.id ∧
     scopeNoInv.inventoryServicePresent = false) ∧
    handler scopeNoInv req1 st0 =
      (Except.ok { order := cleanResponseData order1 [] }, stCancel st0 req1.fulfillment_id,
        [Event.retrieveFulfillment req1.fulfillment_id [],
         Event.cancelFulfillment req1.fulfillment_id,
         Event.retrieveFulfillment req1.fulfillment_id ["items", "items.item"],
         Event.retrieveOrderWithTotals req1.id req1.retrieveConfig req1.includes]) :=
  ⟨⟨rfl, rfl, rfl⟩,
   (handler_cancels_without_adjustment scopeNoInv req1 st0 ful0 ful1 order1
     rfl rfl rfl rfl (Or.inr rfl) rfl).1⟩

/-- C5 witness: the concrete successful run's trace, in order: fetch, cancel,
re-fetch, the two adjustments, then the order reload. -/
theorem handler_operation_order_witness :
    (baseScope.retrieve req1.fulfillment_id [] st0 = Except.ok ful0 ∧
     ful0.order_id = req1.id) ∧
    (handler baseScope req1 st0).2.2 =
      [Event.retrieveFulfillment "ful_1" [],
       Event.cancelFulfillment "ful_1",
       Event.retrieveFulfillment "ful_1" ["items", "items.item"],
       Event.adjustInventory "var_1" "loc_1" 2,
       Event.adjustInventory "var_2" "loc_1" 0,
       Event.retrieveOrderWithTotals "order_1" cfg1 []] :=
  ⟨⟨rfl, rfl⟩,
   handler_operation_order baseScope req1 st0 ful0 ful1 order1
     rfl rfl rfl rfl (fun _ _c _ => rfl) rfl⟩

/-- C6 witness: the concrete successful run responds with the cleaned reloaded
order under the single key `order`, and the reload event closes the trace. -/
theorem handler_response_shape_witness :
    (baseScope.retrieve req1.fulfillment_id [] st0 = Except.ok ful0 ∧
     ful0.order_id = req1.id) ∧
    ((handler baseScope req1 st0).1 = Except.ok { order := cleanResponseData order1 [] } ∧
     (∃ t0, (handler baseScope req1 st0).2.2 =
       t0 ++ [Event.retrieveOrderWithTotals req1.id req1.retrieveConfig req1.includes])) :=
  ⟨⟨rfl, rfl⟩,
   handler_response_shape baseScope req1 st0 ful0 ful1 order1
     rfl rfl rfl rfl (fun _ _c _ => rfl) rfl⟩

/-- C7 witness: a concrete run whose cancellation throws — the handler's error
is classified as a collaborator error, propagated unmodified. -/
theorem handler_error_propagation_witness :
    handler scopeCancelFail req1 st0 =
      (Except.error errCancel, st0,
        [Event.retrieveFulfillment "ful_1" [], Event.cancelFulfillment "ful_1"]) ∧
    (errCancel = { type := ErrType.NOT_FOUND,
                   message := ownershipMessage req1.fulfillment_id req1.id } ∨
     (∃ fid rel s0, scopeCancelFail.retrieve fid rel s0 = Except.error errCancel) ∨
     (∃ fid, scopeCancelFail.cancelError fid = some errCancel) ∨
     (∃ v l q, scopeCancelFail.adjustError v l q = some errCancel) ∨
     (∃ oid cfg inc s0, scopeCancelFail.orderWithTotals oid cfg inc s0 =
       Except.error errCancel)) :=
  ⟨rfl,
   handler_error_propagation scopeCancelFail req1 st0 errCancel st0
     [Event.retrieveFulfillment "ful_1" [], Event.cancelFulfillment "ful_1"] rfl⟩

/-- C8 witness: the fan-out over `ful1` calls adjustInventory for `var_2`
with quantity 0. -/
theorem adjustInventory_called_for_zero_quantity_witness :
    (itemZ ∈ ful1.items ∧ itemZ.item.variant_id = some "var_2" ∧ itemZ.quantity = 0) ∧
    Event.adjustInventory "var_2" (ful1.location_id.getD "") 0 ∈
      (adjustInventoryForCancelledFulfillment baseScope ful1 st0).2.2 :=
  ⟨⟨by decide, rfl, rfl⟩,
   adjustInventory_called_for_zero_quantity baseScope ful1 st0 itemZ "var_2"
     (by decide) rfl (by decide) rfl (fun _c _ => rfl)⟩

/-- C9 witness: a concrete run whose re-fetched fulfillment has the falsy
location `""` while an inventory service is present — no adjustment, but the
cancellation happens and the run succeeds. -/
theorem handler_falsy_location_skips_adjustment_witness :
    (scopeEmptyLoc.retrieve req1.fulfillment_id [] st0 = Except.ok ful0 ∧
     ful0.order_id = req1.id ∧
     scopeEmptyLoc.inventoryServicePresent = true ∧
     fulEmptyLoc.location_id = some "") ∧
    ((∀ v l q, Event.adjustInventory v l q ∉ (handler scopeEmptyLoc req1 st0).2.2) ∧
     Event.cancelFulfillment req1.fulfillment_id ∈ (handler scopeEmptyLoc req1 st0).2.2 ∧
     (handler scopeEmptyLoc req1 st0).1 = Except.ok { order := cleanResponseData order1 [] } ∧
     req1.fulfillment_id ∈ (handler scopeEmptyLoc req1 st0).2.1.cancelled) :=
  ⟨⟨rfl, rfl, rfl, rfl⟩,
   handler_falsy_location_skips_adjustment scopeEmptyLoc req1 st0 ful0 fulEmptyLoc order1
     rfl rfl rfl rfl rfl (Or.inr rfl) rfl⟩

/-- C10 witness: the pre-transaction fetch returns `ful0` (no location, no
items) while the re-fetch returns `ful1`; the adjust calls follow `ful1` and
all use its location. -/
theorem handler_adjusts_from_refetched_fulfillment_witness :
    (baseScope.retrieve req1.fulfillment_id [] st0 = Except.ok ful0 ∧
     ful0.location_id = none ∧ ful0.items = [] ∧
     baseScope.retrieve req1.fulfillment_id ["items", "items.item"]
       (stCancel st0 req1.fulfillment_id) = Except.ok ful1) ∧
    (((handler baseScope req1 st0).2.2).filter isAdjustEvent =
      (adjustCalls ful1).map adjustEvent ∧
     (∀ v l q, Event.adjustInventory v l q ∈ (handler baseScope req1 st0).2.2 →
       l = ful1.location_id.getD "")) :=
  ⟨⟨rfl, rfl, rfl, rfl⟩,
   handler_adjusts_from_refetched_fulfillment baseScope req1 st0 ful0 ful1 order1
     rfl rfl rfl rfl rfl rfl (fun _c _ => rfl) rfl⟩

end CancelFulfillment
